import Mathlib

/-!
Verification of the orientation-estimation core of the motion example
(`src/examples/motion/rs-motion.cpp`): the `rotation_estimator` class
(complementary filter fusing gyroscope and accelerometer samples) and the
`calc_transform` pose-to-matrix converter.

Machine floating point (`float` / `double`) is idealized as the real
numbers ℝ; the C math-library functions `atan2` and `sqrt` are modelled by
their exact real counterparts.  The mutable C++ object is embedded as a
state record, each member function becoming a pure state-transition
function.
-/

open Real Filter

/-- Three-component vector of reals, modelling the `float3` struct (and the
SDK's `rs2_vector`): fields `x`, `y`, `z`. -/
structure float3 where
  x : ℝ
  y : ℝ
  z : ℝ

/-- Modelled from the spec: `float3::add` lives in `examples/example.hpp`,
which is not under `src/`; the spec says the angle delta is added
component-wise to `theta`. -/
def float3.add (v : float3) (t1 t2 t3 : ℝ) : float3 :=
  ⟨v.x + t1, v.y + t2, v.z + t3⟩

/-- Modelled from the spec: the scalar product `float3 * t` lives in
`examples/example.hpp`, which is not under `src/`; the spec says the angle
delta is `sample * dt` component-wise. -/
def float3.smul (v : float3) (t : ℝ) : float3 :=
  ⟨v.x * t, v.y * t, v.z * t⟩

/-- Modelled from the spec: the constant `PI` lives in
`examples/example.hpp`, which is not under `src/`; the spec calls it the
fixed convention constant π. -/
noncomputable def PI : ℝ := Real.pi

/-- The C math-library `atan2` on exact reals (standard quadrant-aware
arctangent). -/
noncomputable def atan2 (y x : ℝ) : ℝ :=
  if 0 < x then Real.arctan (y / x)
  else if x < 0 ∧ 0 ≤ y then Real.arctan (y / x) + Real.pi
  else if x < 0 ∧ y < 0 then Real.arctan (y / x) - Real.pi
  else if x = 0 ∧ 0 < y then Real.pi / 2
  else if x = 0 ∧ y < 0 then -(Real.pi / 2)
  else 0

/-- State of the `rotation_estimator` class: the angle estimate `theta`,
the smoothing coefficient `alpha` (initialized to 0.98), the
initialization flag `first` and the arrival time of the previous gyro
frame `last_ts_gyro`.  The mutex only serializes access and has no
sequential content. -/
structure rotation_estimator where
  theta : float3
  alpha : ℝ
  first : Bool
  last_ts_gyro : ℝ

/-- A freshly constructed `rotation_estimator`: `alpha = 0.98`,
`first = true`, `last_ts_gyro = 0`; `theta` is an uninitialized `float3`,
kept as a parameter. -/
noncomputable def rotation_estimator.mk0 (theta0 : float3) : rotation_estimator :=
  ⟨theta0, 0.98, true, 0⟩

/-- `rotation_estimator::process_gyro(rs2_vector gyro_data, double ts)`:
on the first iteration only record the timestamp; otherwise integrate the
angular rate over `dt = (ts - last_ts_gyro) / 1000` and add
`(-gyro_angle.z, -gyro_angle.y, gyro_angle.x)` to `theta`. -/
noncomputable def process_gyro (s : rotation_estimator) (gyro_data : float3)
    (ts : ℝ) : rotation_estimator :=
  if s.first then
    { s with last_ts_gyro := ts }
  else
    let gyro_angle : float3 := ⟨gyro_data.x, gyro_data.y, gyro_data.z⟩
    let dt_gyro : ℝ := (ts - s.last_ts_gyro) / 1000
    let gyro_angle := gyro_angle.smul dt_gyro
    { s with
      last_ts_gyro := ts,
      theta := s.theta.add (-gyro_angle.z) (-gyro_angle.y) gyro_angle.x }

/-- The pitch inclination computed by `process_accel`:
`atan2(accel_data.x, sqrt(accel_data.y * accel_data.y + accel_data.z * accel_data.z))`. -/
noncomputable def accelPitch (accel_data : float3) : ℝ :=
  atan2 accel_data.x
    (Real.sqrt (accel_data.y * accel_data.y + accel_data.z * accel_data.z))

/-- The roll inclination computed by `process_accel`:
`atan2(accel_data.y, accel_data.z)`. -/
noncomputable def accelRoll (accel_data : float3) : ℝ :=
  atan2 accel_data.y accel_data.z

/-- `rotation_estimator::process_accel(rs2_vector accel_data)`: compute the
inclination angles `accel_angle.x` (pitch) and `accel_angle.z` (roll); on
the first iteration set `theta = accel_angle` then force `theta.y = PI`
and clear `first` (the never-assigned `accel_angle.y` is overwritten, so it
does not appear); otherwise blend pitch and roll with coefficient `alpha`,
leaving `theta.y` untouched. -/
noncomputable def process_accel (s : rotation_estimator)
    (accel_data : float3) : rotation_estimator :=
  let ax := accelPitch accel_data
  let az := accelRoll accel_data
  if s.first then
    { s with first := false, theta := ⟨ax, PI, az⟩ }
  else
    { s with
      theta := ⟨s.theta.x * s.alpha + ax * (1 - s.alpha),
                s.theta.y,
                s.theta.z * s.alpha + az * (1 - s.alpha)⟩ }

/-- `rotation_estimator::get_theta()`: returns a snapshot copy of `theta`;
the post-state of the object is returned alongside to make the frame
effect explicit (the body only locks and reads). -/
def get_theta (s : rotation_estimator) : float3 × rotation_estimator :=
  (s.theta, s)

/-- The SDK's `rs2_quaternion`: rotation as a quaternion `x, y, z, w`. -/
structure rs2_quaternion where
  x : ℝ
  y : ℝ
  z : ℝ
  w : ℝ

/-- The two fields of the SDK's `rs2_pose` read by `calc_transform`:
`rotation` (unit quaternion) and `translation` (3-vector). -/
structure rs2_pose where
  rotation : rs2_quaternion
  translation : float3

/-- `calc_transform(rs2_pose&, float mat[16])`: fills a 16-element
column-major matrix from the pose, negating the first and third columns;
embedded as a function from the array index (0..15, junk 0 elsewhere) to
the stored value. -/
def calc_transform (pose_data : rs2_pose) : ℕ → ℝ :=
  fun i =>
    let q := pose_data.rotation
    let t := pose_data.translation
    match i with
    | 0 => -(1 - 2 * q.y * q.y - 2 * q.z * q.z)
    | 4 => 2 * q.x * q.y - 2 * q.z * q.w
    | 8 => -(2 * q.x * q.z + 2 * q.y * q.w)
    | 12 => t.x
    | 1 => -(2 * q.x * q.y + 2 * q.z * q.w)
    | 5 => 1 - 2 * q.x * q.x - 2 * q.z * q.z
    | 9 => -(2 * q.y * q.z - 2 * q.x * q.w)
    | 13 => t.y
    | 2 => -(2 * q.x * q.z - 2 * q.y * q.w)
    | 6 => 2 * q.y * q.z + 2 * q.x * q.w
    | 10 => -(1 - 2 * q.x * q.x - 2 * q.y * q.y)
    | 14 => t.z
    | 3 => 0
    | 7 => 0
    | 11 => 0
    | 15 => 1
    | _ => 0

/-- The standard quaternion-to-rotation-matrix formula, written from the
spec for comparison with `calc_transform`: entry in row `r`, column `c`
(0..2, junk 0 elsewhere). -/
def quat_rot (q : rs2_quaternion) (r c : ℕ) : ℝ :=
  match r, c with
  | 0, 0 => 1 - 2 * (q.y ^ 2 + q.z ^ 2)
  | 0, 1 => 2 * (q.x * q.y - q.z * q.w)
  | 0, 2 => 2 * (q.x * q.z + q.y * q.w)
  | 1, 0 => 2 * (q.x * q.y + q.z * q.w)
  | 1, 1 => 1 - 2 * (q.x ^ 2 + q.z ^ 2)
  | 1, 2 => 2 * (q.y * q.z - q.x * q.w)
  | 2, 0 => 2 * (q.x * q.z - q.y * q.w)
  | 2, 1 => 2 * (q.y * q.z + q.x * q.w)
  | 2, 2 => 1 - 2 * (q.x ^ 2 + q.y ^ 2)
  | _, _ => 0

/-- Iterating `process_accel` with one fixed accelerometer input. -/
noncomputable def accel_iter (a : float3) (s : rotation_estimator) (n : ℕ) :
    rotation_estimator :=
  (fun st => process_accel st a)^[n] s

/-- The pitch component of the iterated estimator state. -/
noncomputable def pitch_seq (a : float3) (s : rotation_estimator) (n : ℕ) : ℝ :=
  (accel_iter a s n).theta.x

/-- The roll component of the iterated estimator state. -/
noncomputable def roll_seq (a : float3) (s : rotation_estimator) (n : ℕ) : ℝ :=
  (accel_iter a s n).theta.z

/-- Monotone one-sided approach of a sequence to a target: each step lands
strictly between the previous value and the target, the target is never
reached unless the sequence starts there, and the sequence tends to the
target. -/
def approaches_mono (u : ℕ → ℝ) (p : ℝ) : Prop :=
  (∀ n, u n < p → u n < u (n + 1) ∧ u (n + 1) < p) ∧
  (∀ n, p < u n → p < u (n + 1) ∧ u (n + 1) < u n) ∧
  (u 0 ≠ p → ∀ n, u n ≠ p) ∧
  Tendsto u atTop (nhds p)

lemma atan2_zero_one : atan2 0 1 = 0 := by
  simp [atan2]

lemma accelPitch_unit : accelPitch ⟨0, 0, 1⟩ = 0 := by
  have h : ((0 : ℝ) * 0 + 1 * 1) = 1 := by norm_num
  simp only [accelPitch, h, Real.sqrt_one]
  exact atan2_zero_one

lemma accelRoll_unit : accelRoll ⟨0, 0, 1⟩ = 0 := by
  simp only [accelRoll]
  exact atan2_zero_one

lemma accel_iter_succ (a : float3) (s : rotation_estimator) (n : ℕ) :
    accel_iter a s (n + 1) = process_accel (accel_iter a s n) a := by
  simp [accel_iter, Function.iterate_succ_apply']

lemma accel_iter_closed (a : float3) (s : rotation_estimator)
    (h : s.first = false) (n : ℕ) :
    (accel_iter a s n).first = false ∧
    (accel_iter a s n).alpha = s.alpha ∧
    (accel_iter a s n).theta.x - accelPitch a =
      s.alpha ^ n * (s.theta.x - accelPitch a) ∧
    (accel_iter a s n).theta.z - accelRoll a =
      s.alpha ^ n * (s.theta.z - accelRoll a) ∧
    (accel_iter a s n).theta.y = s.theta.y := by
  induction n with
  | zero =>
    refine ⟨h, rfl, ?_, ?_, rfl⟩ <;> simp [accel_iter]
  | succ n ih =>
    obtain ⟨hf, ha, hx, hz, hy⟩ := ih
    rw [accel_iter_succ]
    refine ⟨by simp [process_accel, hf], by simp [process_accel, hf, ha], ?_, ?_, ?_⟩
    · have hs : (process_accel (accel_iter a s n) a).theta.x =
          (accel_iter a s n).theta.x * (accel_iter a s n).alpha +
            accelPitch a * (1 - (accel_iter a s n).alpha) := by
        simp [process_accel, hf]
      rw [hs, ha,
        show (accel_iter a s n).theta.x =
          accelPitch a + s.alpha ^ n * (s.theta.x - accelPitch a) by linarith]
      ring
    · have hs : (process_accel (accel_iter a s n) a).theta.z =
          (accel_iter a s n).theta.z * (accel_iter a s n).alpha +
            accelRoll a * (1 - (accel_iter a s n).alpha) := by
        simp [process_accel, hf]
      rw [hs, ha,
        show (accel_iter a s n).theta.z =
          accelRoll a + s.alpha ^ n * (s.theta.z - accelRoll a) by linarith]
      ring
    · have hs : (process_accel (accel_iter a s n) a).theta.y =
          (accel_iter a s n).theta.y := by
        simp [process_accel, hf]
      rw [hs, hy]

lemma approaches_mono_of_geom (u : ℕ → ℝ) (p c d : ℝ) (h0 : 0 < c)
    (h1 : c < 1) (hu : ∀ n, u n - p = c ^ n * d) : approaches_mono u p := by
  have hstep : ∀ n, u (n + 1) - p = c * (u n - p) := by
    intro n
    rw [hu, hu, pow_succ]
    ring
  refine ⟨?_, ?_, ?_, ?_⟩
  · intro n hn
    have hneg : u n - p < 0 := by linarith
    have h2 : c * (u n - p) < 0 := mul_neg_of_pos_of_neg h0 hneg
    have h3 : u n - p < c * (u n - p) := by nlinarith
    have h4 := hstep n
    constructor <;> linarith
  · intro n hn
    have hpos : 0 < u n - p := by linarith
    have h2 : 0 < c * (u n - p) := mul_pos h0 hpos
    have h3 : c * (u n - p) < u n - p := by nlinarith
    have h4 := hstep n
    constructor <;> linarith
  · intro h00 n
    have hd : d ≠ 0 := by
      intro hd0
      apply h00
      have := hu 0
      rw [hd0, mul_zero] at this
      linarith
    have : u n - p ≠ 0 := by
      rw [hu]
      exact mul_ne_zero (pow_ne_zero n (ne_of_gt h0)) hd
    intro he
    exact this (by rw [he, sub_self])
  · have hc : Tendsto (fun n : ℕ => c ^ n) atTop (nhds 0) :=
      tendsto_pow_atTop_nhds_zero_of_lt_one h0.le h1
    have h2 := (hc.mul_const d).const_add p
    rw [zero_mul, add_zero] at h2
    exact Tendsto.congr (fun n => by linarith [hu n]) h2

/-- Claim C6: the very first `process_gyro` call on a freshly constructed
estimator records the sample timestamp into `last_ts_gyro` and returns
leaving `theta` (and every other member except `last_ts_gyro`) entirely
unchanged. -/
theorem process_gyro_fresh_records_ts_only (theta0 gyro_data : float3)
    (ts : ℝ) :
    process_gyro (rotation_estimator.mk0 theta0) gyro_data ts =
      ⟨theta0, 0.98, true, ts⟩ := by
  simp [process_gyro, rotation_estimator.mk0]

/-- Claim C3: every `process_gyro` call made while `first` is still true
leaves `theta` unchanged and only overwrites `last_ts_gyro`; moreover the
gyro path never changes the `first` flag on any state, so only
`process_accel` can clear it. -/
theorem process_gyro_before_init (s : rotation_estimator)
    (gyro_data : float3) (ts : ℝ) (s2 : rotation_estimator) (w : float3)
    (ts2 : ℝ) (h : s.first = true) :
    process_gyro s gyro_data ts = { s with last_ts_gyro := ts } ∧
      (process_gyro s2 w ts2).first = s2.first := by
  constructor
  · simp [process_gyro, h]
  · by_cases h2 : s2.first <;> simp [process_gyro, h2]

/-- Witness for claim C3 at a concrete initialized-flag state. -/
theorem process_gyro_before_init_witness :
    ((⟨⟨1, 2, 3⟩, 1 / 2, true, 7⟩ : rotation_estimator).first = true) ∧
      (process_gyro ⟨⟨1, 2, 3⟩, 1 / 2, true, 7⟩ ⟨4, 5, 6⟩ 9 =
          { (⟨⟨1, 2, 3⟩, 1 / 2, true, 7⟩ : rotation_estimator) with
              last_ts_gyro := 9 } ∧
        (process_gyro ⟨⟨0, 0, 0⟩, 1 / 2, false, 0⟩ ⟨1, 1, 1⟩ 2).first =
          (⟨⟨0, 0, 0⟩, 1 / 2, false, 0⟩ : rotation_estimator).first) :=
  ⟨rfl, process_gyro_before_init _ _ _ _ _ _ rfl⟩

/-- Claim C10: `get_theta` mutates no estimator state — the post-state is
identical to the pre-state in every field — so two consecutive calls with
no intervening producer call return equal values. -/
theorem get_theta_pure (s : rotation_estimator) :
    (get_theta s).2 = s ∧
      (get_theta s).2.theta = s.theta ∧
      (get_theta s).2.alpha = s.alpha ∧
      (get_theta s).2.first = s.first ∧
      (get_theta s).2.last_ts_gyro = s.last_ts_gyro ∧
      (get_theta ((get_theta s).2)).1 = (get_theta s).1 :=
  ⟨rfl, rfl, rfl, rfl, rfl, rfl⟩

/-- Claim C1: for every angular-rate sample other than the first ever
received (`first = false`), `process_gyro` updates `last_ts_gyro` to `ts`
and adds `(-v.z * dt, -v.y * dt, v.x * dt)` component-wise to `theta`,
with `dt = (ts - last_ts_gyro) / 1000`; in particular, for two consecutive
samples with equal vector `v` at times `ts` and `ts2`, `theta` after the
second call equals the value before it plus that delta at
`dt = (ts2 - ts) / 1000`. -/
theorem process_gyro_integrates (s : rotation_estimator) (v : float3)
    (ts ts2 : ℝ) (h : s.first = false) :
    (process_gyro s v ts).theta =
        s.theta.add (-(v.z * ((ts - s.last_ts_gyro) / 1000)))
          (-(v.y * ((ts - s.last_ts_gyro) / 1000)))
          (v.x * ((ts - s.last_ts_gyro) / 1000)) ∧
      (process_gyro s v ts).last_ts_gyro = ts ∧
      (process_gyro (process_gyro s v ts) v ts2).theta =
        (process_gyro s v ts).theta.add (-(v.z * ((ts2 - ts) / 1000)))
          (-(v.y * ((ts2 - ts) / 1000))) (v.x * ((ts2 - ts) / 1000)) := by
  refine ⟨?_, ?_, ?_⟩ <;> simp [process_gyro, float3.smul, h]

/-- Witness for claim C1 at a concrete post-initialization state. -/
theorem process_gyro_integrates_witness :
    ((⟨⟨1, 1, 1⟩, 1 / 2, false, 5⟩ : rotation_estimator).first = false) ∧
      ((process_gyro ⟨⟨1, 1, 1⟩, 1 / 2, false, 5⟩ ⟨1, 2, 3⟩ 10).theta =
          (⟨1, 1, 1⟩ : float3).add (-(3 * ((10 - 5) / 1000)))
            (-(2 * ((10 - 5) / 1000))) (1 * ((10 - 5) / 1000)) ∧
        (process_gyro ⟨⟨1, 1, 1⟩, 1 / 2, false, 5⟩ ⟨1, 2, 3⟩ 10).last_ts_gyro =
          10 ∧
        (process_gyro (process_gyro ⟨⟨1, 1, 1⟩, 1 / 2, false, 5⟩ ⟨1, 2, 3⟩ 10)
              ⟨1, 2, 3⟩ 12).theta =
          (process_gyro ⟨⟨1, 1, 1⟩, 1 / 2, false, 5⟩ ⟨1, 2, 3⟩ 10).theta.add
            (-(3 * ((12 - 10) / 1000))) (-(2 * ((12 - 10) / 1000)))
            (1 * ((12 - 10) / 1000))) :=
  ⟨rfl, process_gyro_integrates _ _ _ _ rfl⟩

/-- Claim C9: for an initialized estimator, a `process_gyro` call whose
timestamp equals the previous gyro timestamp yields `dt = 0` and leaves
`theta` unchanged; and the same update formula is applied for an arbitrary
(even non-increasing) timestamp `ts`, with no validation, so a negative
`dt = (ts - last_ts_gyro) / 1000` produces a reversed-sign delta. -/
theorem process_gyro_no_ts_validation (s : rotation_estimator) (v : float3)
    (ts : ℝ) (h : s.first = false) :
    (process_gyro s v s.last_ts_gyro).theta = s.theta ∧
      (process_gyro s v s.last_ts_gyro).last_ts_gyro = s.last_ts_gyro ∧
      (process_gyro s v ts).theta =
        s.theta.add (-(v.z * ((ts - s.last_ts_gyro) / 1000)))
          (-(v.y * ((ts - s.last_ts_gyro) / 1000)))
          (v.x * ((ts - s.last_ts_gyro) / 1000)) := by
  refine ⟨?_, ?_, ?_⟩ <;> simp [process_gyro, float3.smul, float3.add, h]

/-- Witness for claim C9 at a concrete state with a repeated timestamp and
a strictly earlier timestamp. -/
theorem process_gyro_no_ts_validation_witness :
    ((⟨⟨1, 1, 1⟩, 1 / 2, false, 5⟩ : rotation_estimator).first = false) ∧
      ((process_gyro ⟨⟨1, 1, 1⟩, 1 / 2, false, 5⟩ ⟨1, 2, 3⟩
            (⟨⟨1, 1, 1⟩, 1 / 2, false, 5⟩ : rotation_estimator).last_ts_gyro).theta =
          (⟨1, 1, 1⟩ : float3) ∧
        (process_gyro ⟨⟨1, 1, 1⟩, 1 / 2, false, 5⟩ ⟨1, 2, 3⟩
            (⟨⟨1, 1, 1⟩, 1 / 2, false, 5⟩ : rotation_estimator).last_ts_gyro).last_ts_gyro =
          (⟨⟨1, 1, 1⟩, 1 / 2, false, 5⟩ : rotation_estimator).last_ts_gyro ∧
        (process_gyro ⟨⟨1, 1, 1⟩, 1 / 2, false, 5⟩ ⟨1, 2, 3⟩ 3).theta =
          (⟨1, 1, 1⟩ : float3).add (-(3 * ((3 - 5) / 1000)))
            (-(2 * ((3 - 5) / 1000))) (1 * ((3 - 5) / 1000))) :=
  ⟨rfl, process_gyro_no_ts_validation _ _ _ rfl⟩

/-- Claim C2: the first `process_accel` call ever received sets `theta` to
exactly `(atan2(a.x, sqrt(a.y^2 + a.z^2)), PI, atan2(a.y, a.z))` — yaw is
forced to exactly `PI` regardless of input — and clears the `first` flag;
in particular, first input `(0, 0, 1)` yields pitch `0`, roll `0`, yaw
`PI`. -/
theorem process_accel_first_init (s : rotation_estimator) (a : float3)
    (h : s.first = true) :
    (process_accel s a).theta = ⟨accelPitch a, PI, accelRoll a⟩ ∧
      (process_accel s a).first = false ∧
      (process_accel s ⟨0, 0, 1⟩).theta = ⟨0, PI, 0⟩ := by
  refine ⟨?_, ?_, ?_⟩ <;>
    simp [process_accel, h, accelPitch_unit, accelRoll_unit]

/-- Witness for claim C2 on a freshly constructed estimator state. -/
theorem process_accel_first_init_witness :
    ((⟨⟨9, 9, 9⟩, 1 / 2, true, 0⟩ : rotation_estimator).first = true) ∧
      ((process_accel ⟨⟨9, 9, 9⟩, 1 / 2, true, 0⟩ ⟨3, 4, 12⟩).theta =
          ⟨accelPitch ⟨3, 4, 12⟩, PI, accelRoll ⟨3, 4, 12⟩⟩ ∧
        (process_accel ⟨⟨9, 9, 9⟩, 1 / 2, true, 0⟩ ⟨3, 4, 12⟩).first = false ∧
        (process_accel ⟨⟨9, 9, 9⟩, 1 / 2, true, 0⟩ ⟨0, 0, 1⟩).theta =
          ⟨0, PI, 0⟩) :=
  ⟨rfl, process_accel_first_init _ _ rfl⟩

/-- Claim C5: every `process_accel` call after initialization
(`first = false`) updates `theta.x` to
`theta.x * alpha + accelPitch * (1 - alpha)` and `theta.z` to
`theta.z * alpha + accelRoll * (1 - alpha)`, and leaves `theta.y` (yaw)
unchanged. -/
theorem process_accel_blend (s : rotation_estimator) (a : float3)
    (h : s.first = false) :
    (process_accel s a).theta.x =
        s.theta.x * s.alpha + accelPitch a * (1 - s.alpha) ∧
      (process_accel s a).theta.z =
        s.theta.z * s.alpha + accelRoll a * (1 - s.alpha) ∧
      (process_accel s a).theta.y = s.theta.y := by
  refine ⟨?_, ?_, ?_⟩ <;> simp [process_accel, h]

/-- Witness for claim C5 at a concrete initialized state. -/
theorem process_accel_blend_witness :
    ((⟨⟨1, 2, 3⟩, 1 / 2, false, 0⟩ : rotation_estimator).first = false) ∧
      ((process_accel ⟨⟨1, 2, 3⟩, 1 / 2, false, 0⟩ ⟨3, 4, 12⟩).theta.x =
          1 * (1 / 2) + accelPitch ⟨3, 4, 12⟩ * (1 - 1 / 2) ∧
        (process_accel ⟨⟨1, 2, 3⟩, 1 / 2, false, 0⟩ ⟨3, 4, 12⟩).theta.z =
          3 * (1 / 2) + accelRoll ⟨3, 4, 12⟩ * (1 - 1 / 2) ∧
        (process_accel ⟨⟨1, 2, 3⟩, 1 / 2, false, 0⟩ ⟨3, 4, 12⟩).theta.y = 2) :=
  ⟨rfl, process_accel_blend _ _ rfl⟩

/-- Claim C4: for every pose, `calc_transform` produces the
column-major matrix whose rotation sub-block is the standard
quaternion-to-rotation-matrix formula (`quat_rot`) with columns 0 and 2
negated, whose elements 12..14 hold the translation, and whose last row is
`(0, 0, 0, 1)`; in particular, the identity quaternion `(0, 0, 0, 1)` with
zero translation yields the diagonal matrix `(-1, 1, -1, 1)` with zero
translation column. -/
theorem calc_transform_spec (p : rs2_pose) :
    (calc_transform p 0 = -quat_rot p.rotation 0 0 ∧
      calc_transform p 1 = -quat_rot p.rotation 1 0 ∧
      calc_transform p 2 = -quat_rot p.rotation 2 0 ∧
      calc_transform p 4 = quat_rot p.rotation 0 1 ∧
      calc_transform p 5 = quat_rot p.rotation 1 1 ∧
      calc_transform p 6 = quat_rot p.rotation 2 1 ∧
      calc_transform p 8 = -quat_rot p.rotation 0 2 ∧
      calc_transform p 9 = -quat_rot p.rotation 1 2 ∧
      calc_transform p 10 = -quat_rot p.rotation 2 2) ∧
    (calc_transform p 12 = p.translation.x ∧
      calc_transform p 13 = p.translation.y ∧
      calc_transform p 14 = p.translation.z) ∧
    (calc_transform p 3 = 0 ∧ calc_transform p 7 = 0 ∧
      calc_transform p 11 = 0 ∧ calc_transform p 15 = 1) ∧
    (calc_transform ⟨⟨0, 0, 0, 1⟩, ⟨0, 0, 0⟩⟩ 0 = -1 ∧
      calc_transform ⟨⟨0, 0, 0, 1⟩, ⟨0, 0, 0⟩⟩ 5 = 1 ∧
      calc_transform ⟨⟨0, 0, 0, 1⟩, ⟨0, 0, 0⟩⟩ 10 = -1 ∧
      calc_transform ⟨⟨0, 0, 0, 1⟩, ⟨0, 0, 0⟩⟩ 15 = 1 ∧
      calc_transform ⟨⟨0, 0, 0, 1⟩, ⟨0, 0, 0⟩⟩ 1 = 0 ∧
      calc_transform ⟨⟨0, 0, 0, 1⟩, ⟨0, 0, 0⟩⟩ 2 = 0 ∧
      calc_transform ⟨⟨0, 0, 0, 1⟩, ⟨0, 0, 0⟩⟩ 3 = 0 ∧
      calc_transform ⟨⟨0, 0, 0, 1⟩, ⟨0, 0, 0⟩⟩ 4 = 0 ∧
      calc_transform ⟨⟨0, 0, 0, 1⟩, ⟨0, 0, 0⟩⟩ 6 = 0 ∧
      calc_transform ⟨⟨0, 0, 0, 1⟩, ⟨0, 0, 0⟩⟩ 7 = 0 ∧
      calc_transform ⟨⟨0, 0, 0, 1⟩, ⟨0, 0, 0⟩⟩ 8 = 0 ∧
      calc_transform ⟨⟨0, 0, 0, 1⟩, ⟨0, 0, 0⟩⟩ 9 = 0 ∧
      calc_transform ⟨⟨0, 0, 0, 1⟩, ⟨0, 0, 0⟩⟩ 11 = 0 ∧
      calc_transform ⟨⟨0, 0, 0, 1⟩, ⟨0, 0, 0⟩⟩ 12 = 0 ∧
      calc_transform ⟨⟨0, 0, 0, 1⟩, ⟨0, 0, 0⟩⟩ 13 = 0 ∧
      calc_transform ⟨⟨0, 0, 0, 1⟩, ⟨0, 0, 0⟩⟩ 14 = 0) := by
  refine ⟨⟨?_, ?_, ?_, ?_, ?_, ?_, ?_, ?_, ?_⟩, ⟨?_, ?_, ?_⟩,
      ⟨?_, ?_, ?_, ?_⟩,
      ⟨?_, ?_, ?_, ?_, ?_, ?_, ?_, ?_, ?_, ?_, ?_, ?_, ?_, ?_, ?_, ?_⟩⟩ <;>
    simp [calc_transform, quat_rot] <;> ring

/-- Claim C7: for an initialized estimator with `alpha` in `(0, 1)`,
iterating `process_accel` with one fixed input makes the pitch and roll
sequences approach that input's inclination angles monotonically — each
step strictly between the previous value and the target — and, in exact
arithmetic, never reach them in finitely many steps unless already equal;
the sequences converge to the targets. -/
theorem process_accel_converges (s : rotation_estimator) (a : float3)
    (hf : s.first = false) (h0 : 0 < s.alpha) (h1 : s.alpha < 1) :
    approaches_mono (pitch_seq a s) (accelPitch a) ∧
      approaches_mono (roll_seq a s) (accelRoll a) := by
  constructor
  · exact approaches_mono_of_geom _ _ s.alpha (s.theta.x - accelPitch a)
      h0 h1 (fun n => (accel_iter_closed a s hf n).2.2.1)
  · exact approaches_mono_of_geom _ _ s.alpha (s.theta.z - accelRoll a)
      h0 h1 (fun n => (accel_iter_closed a s hf n).2.2.2.1)

/-- Witness for claim C7 at a concrete initialized state with
`alpha = 1/2` and fixed input `(0, 0, 1)`. -/
theorem process_accel_converges_witness :
    ((⟨⟨1, 2, 3⟩, 1 / 2, false, 0⟩ : rotation_estimator).first = false) ∧
      (0 < (⟨⟨1, 2, 3⟩, 1 / 2, false, 0⟩ : rotation_estimator).alpha) ∧
      ((⟨⟨1, 2, 3⟩, 1 / 2, false, 0⟩ : rotation_estimator).alpha < 1) ∧
      (approaches_mono (pitch_seq ⟨0, 0, 1⟩ ⟨⟨1, 2, 3⟩, 1 / 2, false, 0⟩)
          (accelPitch ⟨0, 0, 1⟩) ∧
        approaches_mono (roll_seq ⟨0, 0, 1⟩ ⟨⟨1, 2, 3⟩, 1 / 2, false, 0⟩)
          (accelRoll ⟨0, 0, 1⟩)) :=
  ⟨rfl, by norm_num, by norm_num,
    process_accel_converges _ _ rfl (by norm_num) (by norm_num)⟩
